import Mathlib

/-!
Verification of the Bovali AI Studio front end: a shallow embedding of its
asset encoder/decoder, generative-response parsing, batch orchestration,
conversational-edit dispatch, workflow state switching, validation gates and
history/export caches, together with theorems settling the specification
claims about them.
-/

set_option maxHeartbeats 1000000

namespace Bovali

/-- The base64 alphabet used by the btoa and atob functions of the browser
`FileReader.readAsDataURL`, which the source relies on in `fileToBase64`,
`fileToDataURL` and `dataURLtoFile`. -/
def base64Alphabet : List Char :=
  ['A','B','C','D','E','F','G','H','I','J','K','L','M',
   'N','O','P','Q','R','S','T','U','V','W','X','Y','Z',
   'a','b','c','d','e','f','g','h','i','j','k','l','m',
   'n','o','p','q','r','s','t','u','v','w','x','y','z',
   '0','1','2','3','4','5','6','7','8','9','+','/']

/-- Character for a six-bit group (out-of-range inputs default to 'A'). -/
def sextetChar (n : Nat) : Char := base64Alphabet.getD n 'A'

/-- Six-bit value of a base64 character, as `atob` reads it. -/
def sextetOf (c : Char) : Nat := base64Alphabet.indexOf c

/-- Standard base64 encoding of a byte sequence, three bytes to four
characters with '=' padding: the encoding `FileReader.readAsDataURL`
produces for the payload portion of a data URL. -/
def encodeBase64 : List Nat → List Char
  | [] => []
  | [b0] => [sextetChar (b0 / 4), sextetChar (b0 % 4 * 16), '=', '=']
  | [b0, b1] =>
      [sextetChar (b0 / 4), sextetChar (b0 % 4 * 16 + b1 / 16),
       sextetChar (b1 % 16 * 4), '=']
  | b0 :: b1 :: b2 :: rest =>
      sextetChar (b0 / 4) :: sextetChar (b0 % 4 * 16 + b1 / 16) ::
      sextetChar (b1 % 16 * 4 + b2 / 64) :: sextetChar (b2 % 64) ::
      encodeBase64 rest

/-- Standard base64 decoding of a padded character sequence, four characters
to up to three bytes: the byte sequence `atob` yields (the source then copies
it character-code by character-code into a `Uint8Array` in `dataURLtoFile`). -/
def decodeBase64 : List Char → List Nat
  | c0 :: c1 :: c2 :: c3 :: rest =>
      if c2 = '=' then [sextetOf c0 * 4 + sextetOf c1 / 16]
      else if c3 = '=' then
        [sextetOf c0 * 4 + sextetOf c1 / 16,
         sextetOf c1 % 16 * 16 + sextetOf c2 / 4]
      else
        (sextetOf c0 * 4 + sextetOf c1 / 16) ::
        (sextetOf c1 % 16 * 16 + sextetOf c2 / 4) ::
        ((sextetOf c2 % 4 * 64 + sextetOf c3) :: decodeBase64 rest)
  | _ => []

theorem sextetOf_sextetChar : ∀ n : Nat, n < 64 → sextetOf (sextetChar n) = n := by
  decide

theorem base64Alphabet_length : base64Alphabet.length = 64 := by decide

theorem sextetChar_ne_eqsign (n : Nat) : sextetChar n ≠ '=' := by
  by_cases h : n < 64
  · exact (by decide : ∀ m : Nat, m < 64 → sextetChar m ≠ '=') n h
  · unfold sextetChar
    rw [List.getD_eq_default]
    · decide
    · rw [base64Alphabet_length]; omega

theorem sextetChar_ne_comma (n : Nat) : sextetChar n ≠ ',' := by
  by_cases h : n < 64
  · exact (by decide : ∀ m : Nat, m < 64 → sextetChar m ≠ ',') n h
  · unfold sextetChar
    rw [List.getD_eq_default]
    · decide
    · rw [base64Alphabet_length]; omega

/-- Round trip of the byte-level base64 pair: decoding an encoding recovers
the original bytes. -/
theorem decodeBase64_encodeBase64 (bytes : List Nat)
    (h : ∀ b ∈ bytes, b < 256) :
    decodeBase64 (encodeBase64 bytes) = bytes := by
  induction bytes using encodeBase64.induct with
  | case1 => rfl
  | case2 b0 =>
      have hb0 : b0 < 256 := h b0 (by simp)
      have e0 := sextetOf_sextetChar (b0 / 4) (by omega)
      have e1 := sextetOf_sextetChar (b0 % 4 * 16) (by omega)
      simp [encodeBase64, decodeBase64, e0, e1]
      omega
  | case3 b0 b1 =>
      have hb0 : b0 < 256 := h b0 (by simp)
      have hb1 : b1 < 256 := h b1 (by simp)
      have e0 := sextetOf_sextetChar (b0 / 4) (by omega)
      have e1 := sextetOf_sextetChar (b0 % 4 * 16 + b1 / 16) (by omega)
      have e2 := sextetOf_sextetChar (b1 % 16 * 4) (by omega)
      simp [encodeBase64, decodeBase64, sextetChar_ne_eqsign, e0, e1, e2]
      omega
  | case4 b0 b1 b2 rest ih =>
      have hb0 : b0 < 256 := h b0 (by simp)
      have hb1 : b1 < 256 := h b1 (by simp)
      have hb2 : b2 < 256 := h b2 (by simp)
      have hrest : ∀ b ∈ rest, b < 256 := fun b hb => h b (by simp [hb])
      have e0 := sextetOf_sextetChar (b0 / 4) (by omega)
      have e1 := sextetOf_sextetChar (b0 % 4 * 16 + b1 / 16) (by omega)
      have e2 := sextetOf_sextetChar (b1 % 16 * 4 + b2 / 64) (by omega)
      have e3 := sextetOf_sextetChar (b2 % 64) (by omega)
      simp [encodeBase64, decodeBase64, sextetChar_ne_eqsign, e0, e1, e2, e3,
        ih hrest]
      omega

theorem encodeBase64_ne_comma (bytes : List Nat) :
    ∀ c ∈ encodeBase64 bytes, c ≠ ',' := by
  induction bytes using encodeBase64.induct with
  | case1 => intro c hc; simp [encodeBase64] at hc
  | case2 b0 =>
      intro c hc
      simp only [encodeBase64, List.mem_cons, List.mem_singleton] at hc
      rcases hc with h | h | h | h | h
      · exact h ▸ sextetChar_ne_comma _
      · exact h ▸ sextetChar_ne_comma _
      · exact h ▸ (by decide)
      · exact h ▸ (by decide)
      · simp at h
  | case3 b0 b1 =>
      intro c hc
      simp only [encodeBase64, List.mem_cons, List.mem_singleton] at hc
      rcases hc with h | h | h | h | h
      · exact h ▸ sextetChar_ne_comma _
      · exact h ▸ sextetChar_ne_comma _
      · exact h ▸ sextetChar_ne_comma _
      · exact h ▸ (by decide)
      · simp at h
  | case4 b0 b1 b2 rest ih =>
      intro c hc
      simp only [encodeBase64, List.mem_cons] at hc
      rcases hc with h | h | h | h | h
      · exact h ▸ sextetChar_ne_comma _
      · exact h ▸ sextetChar_ne_comma _
      · exact h ▸ sextetChar_ne_comma _
      · exact h ▸ sextetChar_ne_comma _
      · exact ih c h

/-- JavaScript `String.prototype.split(',')` on a character sequence. -/
def splitComma : List Char → List (List Char)
  | [] => [[]]
  | c :: rest =>
      if c = ',' then [] :: splitComma rest
      else
        match splitComma rest with
        | [] => [[c]]
        | p :: ps => (c :: p) :: ps

/-- The characters after the first ':' (none when there is no ':'). -/
def afterColon : List Char → Option (List Char)
  | [] => none
  | c :: rest => if c = ':' then some rest else afterColon rest

/-- The characters before the first ';' (none when there is no ';'). -/
def takeUntilSemicolon : List Char → Option (List Char)
  | [] => none
  | c :: rest =>
      if c = ';' then some []
      else (takeUntilSemicolon rest).map (fun l => c :: l)

/-- The capture of the JavaScript regular expression match `:(.*?);` used by
both `parseDataUrl` and `dataURLtoFile` to recover a MIME type: the lazily
shortest run between the first ':' and the next ';'. -/
def extractMime (s : List Char) : Option (List Char) :=
  (afterColon s).bind takeUntilSemicolon

/-- In-memory model of a browser `File`: name, MIME type and byte payload. -/
structure FileV where
  name : String
  type : String
  fileBytes : List Nat
deriving DecidableEq, Repr

/-- `fileToDataURL` (App.tsx): `FileReader.readAsDataURL` renders a file as
`data:<mime>;base64,<payload>`. -/
def fileToDataURL (f : FileV) : String :=
  String.mk ("data:".data ++ f.type.data ++ ";base64,".data ++
    encodeBase64 f.fileBytes)

/-- JavaScript `atob` followed by the per-character copy the source makes
into a `Uint8Array`: base64 decoding to bytes. -/
def atob (s : List Char) : List Nat := decodeBase64 s

/-- `dataURLtoFile` (App.tsx): split on ',', read the MIME type with the
`:(.*?);` regular expression (throwing "Invalid data URL" when it does not
match) and decode the payload with `atob`. -/
def dataURLtoFile (dataurl : String) (filename : String) : Except String FileV :=
  match extractMime ((splitComma dataurl.data).headD []) with
  | none => Except.error "Invalid data URL"
  | some mime =>
      Except.ok ⟨filename, String.mk mime,
        atob ((splitComma dataurl.data).getD 1 [])⟩

/-- `parseDataUrl` (App.tsx): same splitting, used by the chat edit flow;
throws "Invalid data URL format" when the MIME pattern does not match. -/
def parseDataUrl (dataUrl : String) : Except String (String × String) :=
  match extractMime ((splitComma dataUrl.data).headD []) with
  | none => Except.error "Invalid data URL format"
  | some mime =>
      Except.ok (String.mk mime,
        String.mk ((splitComma dataUrl.data).getD 1 []))

theorem splitComma_no_comma (a : List Char) (h : ∀ c ∈ a, c ≠ ',') :
    splitComma a = [a] := by
  induction a with
  | nil => rfl
  | cons c rest ih =>
      have hc : c ≠ ',' := h c (by simp)
      have hrest : ∀ x ∈ rest, x ≠ ',' := fun x hx => h x (by simp [hx])
      simp [splitComma, hc, ih hrest]

theorem splitComma_append (a b : List Char) (h : ∀ c ∈ a, c ≠ ',') :
    splitComma (a ++ ',' :: b) = a :: splitComma b := by
  induction a with
  | nil => simp [splitComma]
  | cons c rest ih =>
      have hc : c ≠ ',' := h c (by simp)
      have hrest : ∀ x ∈ rest, x ≠ ',' := fun x hx => h x (by simp [hx])
      simp only [List.cons_append, splitComma, if_neg hc, List.append_eq,
        ih hrest]

theorem afterColon_dataMarker (rest : List Char) :
    afterColon ('d' :: 'a' :: 't' :: 'a' :: ':' :: rest) = some rest := by
  simp [afterColon]

theorem takeUntilSemicolon_append (a b : List Char) (h : ∀ c ∈ a, c ≠ ';') :
    takeUntilSemicolon (a ++ ';' :: b) = some a := by
  induction a with
  | nil => simp [takeUntilSemicolon]
  | cons c rest ih =>
      have hc : c ≠ ';' := h c (by simp)
      have hrest : ∀ x ∈ rest, x ≠ ';' := fun x hx => h x (by simp [hx])
      simp [takeUntilSemicolon, hc, ih hrest]

/-- C5: for every image asset (binary payload plus MIME type), encoding it
with `fileToDataURL` and decoding the result with `dataURLtoFile` yields
byte-identical content and the original MIME type. The hypotheses say the
payload is made of bytes and the MIME type is a well-formed one (an image
MIME type contains neither ',' nor ';'). -/
theorem dataURL_roundTrip (f : FileV) (fn : String)
    (hb : ∀ b ∈ f.fileBytes, b < 256)
    (hm : ∀ c ∈ f.type.data, c ≠ ',' ∧ c ≠ ';') :
    dataURLtoFile (fileToDataURL f) fn = Except.ok ⟨fn, f.type, f.fileBytes⟩ := by
  have hD : ∀ c ∈ "data:".data, c ≠ ',' := by decide
  have hS7 : ∀ c ∈ ([';', 'b', 'a', 's', 'e', '6', '4'] : List Char),
      c ≠ ',' := by decide
  have hA : ∀ c ∈ ("data:".data ++ f.type.data) ++
      [';', 'b', 'a', 's', 'e', '6', '4'], c ≠ ',' := by
    intro c hc
    rcases List.mem_append.mp hc with hc | hc
    · rcases List.mem_append.mp hc with hc | hc
      · exact hD c hc
      · exact (hm c hc).1
    · exact hS7 c hc
  have hT : ∀ c ∈ f.type.data, c ≠ ';' := fun c hc => (hm c hc).2
  have hdata : (fileToDataURL f).data =
      "data:".data ++ f.type.data ++ ";base64,".data ++
        encodeBase64 f.fileBytes := rfl
  have hcat : "data:".data ++ f.type.data ++ ";base64,".data ++
      encodeBase64 f.fileBytes =
      (("data:".data ++ f.type.data) ++ [';', 'b', 'a', 's', 'e', '6', '4']) ++
        ',' :: encodeBase64 f.fileBytes := by
    have h78 : ";base64,".data =
        ([';', 'b', 'a', 's', 'e', '6', '4'] : List Char) ++ [','] := by decide
    rw [h78]
    simp [List.append_assoc]
  have hsplit : splitComma ((("data:".data ++ f.type.data) ++
      [';', 'b', 'a', 's', 'e', '6', '4']) ++ ',' :: encodeBase64 f.fileBytes) =
      (("data:".data ++ f.type.data) ++ [';', 'b', 'a', 's', 'e', '6', '4']) ::
        [encodeBase64 f.fileBytes] := by
    rw [splitComma_append _ _ hA,
      splitComma_no_comma _ (encodeBase64_ne_comma _)]
  have h1 : (("data:".data ++ f.type.data) ++
      [';', 'b', 'a', 's', 'e', '6', '4']) =
      'd' :: 'a' :: 't' :: 'a' :: ':' ::
        (f.type.data ++ [';', 'b', 'a', 's', 'e', '6', '4']) := by
    have hdd : "data:".data = (['d', 'a', 't', 'a', ':'] : List Char) := rfl
    rw [hdd]
    simp
  have hmime : extractMime (("data:".data ++ f.type.data) ++
      [';', 'b', 'a', 's', 'e', '6', '4']) = some f.type.data := by
    rw [h1]
    unfold extractMime
    rw [afterColon_dataMarker]
    show takeUntilSemicolon (f.type.data ++ [';', 'b', 'a', 's', 'e', '6', '4'])
      = some f.type.data
    have h2 : f.type.data ++ ([';', 'b', 'a', 's', 'e', '6', '4'] : List Char)
        = f.type.data ++ ';' :: ['b', 'a', 's', 'e', '6', '4'] := rfl
    rw [h2, takeUntilSemicolon_append _ _ hT]
  unfold dataURLtoFile
  rw [hdata, hcat, hsplit]
  simp only [List.headD_cons, hmime]
  have hget : ((("data:".data ++ f.type.data) ++
      [';', 'b', 'a', 's', 'e', '6', '4']) ::
        [encodeBase64 f.fileBytes]).getD 1 [] = encodeBase64 f.fileBytes := rfl
  rw [hget]
  simp only [atob, decodeBase64_encodeBase64 f.fileBytes hb]

/-- C5 witness: a concrete PNG-typed asset round trips through the
data-URL encoder/decoder pair. -/
theorem dataURL_roundTrip_witness :
    dataURLtoFile (fileToDataURL ⟨"a.png", "image/png", [137, 80, 78, 71, 13, 10]⟩)
      "copy.png" =
      Except.ok ⟨"copy.png", "image/png", [137, 80, 78, 71, 13, 10]⟩ :=
  dataURL_roundTrip ⟨"a.png", "image/png", [137, 80, 78, 71, 13, 10]⟩
    "copy.png" (by decide) (by decide)

/-- One part of a generative-backend response: inline binary data with a
MIME type, or text (a part whose `text` field is the empty string is falsy
in the test `else if (part.text)` of the source, which the text case
models). -/
inductive Part where
  | inlineData (data : String) (mimeType : String)
  | textPart (t : String)
deriving DecidableEq, Repr

/-- The directly-renderable data URI built from an inline-data part:
`data:<mime>;base64,<payload>`. -/
def dataURI (mimeType : String) (data : String) : String :=
  "data:" ++ mimeType ++ ";base64," ++ data

/-- Response parsing of `generateSurfaceDesign` (geminiService): walk the
parts in order and `break` on the first inline-data part. -/
def parseGenParts : List Part → Option String
  | [] => none
  | Part.inlineData d m :: _ => some (dataURI m d)
  | Part.textPart _ :: rest => parseGenParts rest

/-- Loop body of `editImageWithPrompt`'s response parsing: no `break`, so
each inline-data part overwrites `imageUrl` and each truthy text part
overwrites `text`. -/
def parseEditLoop : Option String → Option String → List Part →
    Option String × Option String
  | img, txt, [] => (img, txt)
  | _, txt, Part.inlineData d m :: rest =>
      parseEditLoop (some (dataURI m d)) txt rest
  | img, txt, Part.textPart t :: rest =>
      parseEditLoop img (if t = "" then txt else some t) rest

/-- Response parsing of `editImageWithPrompt`: the whole loop starting from
null `imageUrl` and null `text`. -/
def parseEditParts (parts : List Part) : Option String × Option String :=
  parseEditLoop none none parts

/-- A backend reply to a one-shot call: a candidate list (each candidate a
part list), or a thrown transport error. -/
inductive BackendResponse where
  | candidates (cs : List (List Part))
  | throwTransport (m : String)
deriving DecidableEq, Repr

/-- `editImageWithPrompt` (geminiService): parse the parts of the first
candidate
with the overwrite loop; fail when no image came back, carrying the returned
text as detail when there is one; rethrow transport errors. -/
def editImageWithPrompt : BackendResponse → Except String (String × Option String)
  | BackendResponse.throwTransport m => Except.error m
  | BackendResponse.candidates cs =>
      match parseEditParts (cs.headD []) with
      | (some imageUrl, text) => Except.ok (imageUrl, text)
      | (none, some t) =>
          Except.error
            ("The AI responded but did not return an image: \"" ++ t ++ "\"")
      | (none, none) =>
          Except.error "The AI did not return an image for your edit request."

/-- What one `generateSurfaceDesign` call settles to, as seen by
`Promise.all`: a thrown error, or a result object whose `imageUrl` is the
parsed image or null (the no-image soft failure). -/
inductive CallOutcome where
  | threw (msg : String)
  | returned (imageUrl : Option String)
deriving DecidableEq, Repr

/-- `generateSurfaceDesign` (geminiService): first-image-wins parsing of the
first candidate; a no-image response is returned as a null `imageUrl` (only
logged), while an exception is rethrown. -/
def generateSurfaceDesign : BackendResponse → CallOutcome
  | BackendResponse.throwTransport m => CallOutcome.threw m
  | BackendResponse.candidates cs =>
      CallOutcome.returned (parseGenParts (cs.headD []))

/-- `Promise.all` over the settled member calls: rejects with the error of
some member as soon as any member rejects, otherwise resolves to all
results. -/
def promiseAll : List CallOutcome → Except String (List (Option String))
  | [] => Except.ok []
  | CallOutcome.threw m :: _ => Except.error m
  | CallOutcome.returned u :: rest =>
      match promiseAll rest with
      | Except.error m => Except.error m
      | Except.ok l => Except.ok (u :: l)

/-- The error `runBatchGeneration` throws when every member produced no image. -/
def batchFailureMessage : String :=
  "The AI failed to generate any images. Please try a different combination of images or prompt."

/-- `runBatchGeneration` (geminiService): await all member calls with
`Promise.all`, keep the non-null image URLs, and throw when none survive. -/
def runBatchGeneration (outcomes : List CallOutcome) : Except String (List String) :=
  match promiseAll outcomes with
  | Except.error m => Except.error m
  | Except.ok results =>
      match results.filterMap id with
      | [] => Except.error batchFailureMessage
      | imageUrls => Except.ok imageUrls

/-- The image URLs of the members that produced an image, in member order. -/
def successUrls (outcomes : List CallOutcome) : List String :=
  outcomes.filterMap (fun o =>
    match o with
    | CallOutcome.returned u => u
    | CallOutcome.threw _ => none)

theorem promiseAll_no_throw (outcomes : List CallOutcome)
    (h : ∀ m, CallOutcome.threw m ∉ outcomes) :
    promiseAll outcomes =
      Except.ok (outcomes.map (fun o =>
        match o with
        | CallOutcome.returned u => u
        | CallOutcome.threw _ => none)) := by
  induction outcomes with
  | nil => rfl
  | cons o rest ih =>
      cases o with
      | threw m => exact absurd (by simp) (h m)
      | returned u =>
          have hrest : ∀ m, CallOutcome.threw m ∉ rest := by
            intro m hm
            exact h m (by simp [hm])
          simp [promiseAll, ih hrest]

theorem promiseAll_throw (outcomes : List CallOutcome) (m : String)
    (h : CallOutcome.threw m ∈ outcomes) :
    ∃ m', promiseAll outcomes = Except.error m' ∧
      CallOutcome.threw m' ∈ outcomes := by
  induction outcomes with
  | nil => simp at h
  | cons o rest ih =>
      cases o with
      | threw m0 => exact ⟨m0, rfl, by simp⟩
      | returned u =>
          have hrest : CallOutcome.threw m ∈ rest := by
            rcases List.mem_cons.mp h with h0 | h0
            · exact absurd h0 (by simp)
            · exact h0
          rcases ih hrest with ⟨m', hm', hmem⟩
          refine ⟨m', ?_, by simp [hmem]⟩
          simp [promiseAll, hm']

theorem successUrls_eq_filterMap_map (outcomes : List CallOutcome) :
    (outcomes.map (fun o =>
      match o with
      | CallOutcome.returned u => u
      | CallOutcome.threw _ => none)).filterMap id = successUrls outcomes := by
  induction outcomes with
  | nil => rfl
  | cons o rest ih =>
      cases o with
      | threw m => simp [successUrls, List.filterMap_cons, ← ih]
      | returned u =>
          cases u with
          | none => simp [successUrls, List.filterMap_cons, ← ih]
          | some s => simp [successUrls, List.filterMap_cons, ← ih]

/-- C1 counterexample: a two-member batch where the first member returned an
image and the second threw rejects the whole batch (the claim demands the
non-empty success list `["data:image/png;base64,AA"]` instead). -/
theorem runBatchGeneration_throw_counterexample :
    runBatchGeneration
        [CallOutcome.returned (some "data:image/png;base64,AA"),
         CallOutcome.threw "network error"] =
      Except.error "network error" ∧
    Except.error "network error" ≠
      (Except.ok ["data:image/png;base64,AA"] : Except String (List String)) := by
  constructor
  · rfl
  · intro h
    exact Except.noConfusion h

/-- C1 amended: when no member call throws, the batch fails exactly when
zero members produced an image and otherwise returns the non-empty ordered
image list of the successful members; but when any member call throws, the
whole batch fails with one of the thrown errors even if other members
produced images. -/
theorem runBatchGeneration_spec (outcomes : List CallOutcome) :
    ((∀ m, CallOutcome.threw m ∉ outcomes) →
      runBatchGeneration outcomes =
        (match successUrls outcomes with
         | [] => Except.error batchFailureMessage
         | urls => Except.ok urls)) ∧
    (∀ m, CallOutcome.threw m ∈ outcomes →
      ∃ m', runBatchGeneration outcomes = Except.error m' ∧
        CallOutcome.threw m' ∈ outcomes) := by
  constructor
  · intro h
    unfold runBatchGeneration
    rw [promiseAll_no_throw outcomes h]
    rw [show ((Except.ok (outcomes.map (fun o =>
      match o with
      | CallOutcome.returned u => u
      | CallOutcome.threw _ => none)) : Except String (List (Option String)))) =
        Except.ok (outcomes.map (fun o =>
      match o with
      | CallOutcome.returned u => u
      | CallOutcome.threw _ => none)) from rfl]
    simp only [successUrls_eq_filterMap_map]
  · intro m hm
    rcases promiseAll_throw outcomes m hm with ⟨m', hm', hmem⟩
    refine ⟨m', ?_, hmem⟩
    unfold runBatchGeneration
    rw [hm']

/-- C1 witness: on a batch with one image-bearing member, one soft-failing
member and no thrown errors, the amended specification evaluates as stated. -/
theorem runBatchGeneration_spec_witness :
    runBatchGeneration
        [CallOutcome.returned (some "data:image/png;base64,AA"),
         CallOutcome.returned none] =
      Except.ok ["data:image/png;base64,AA"] := by
  have h := (runBatchGeneration_spec
    [CallOutcome.returned (some "data:image/png;base64,AA"),
     CallOutcome.returned none]).1 (by intro m hm; simp at hm)
  exact h

/-- C3 counterexample: an edit-call response with two inline-data parts is
parsed to the data URI of the second part, not the first. -/
theorem editImageWithPrompt_last_wins_counterexample :
    editImageWithPrompt
        (BackendResponse.candidates
          [[Part.inlineData "AA" "image/png", Part.inlineData "BB" "image/jpeg"]]) =
      Except.ok ("data:image/jpeg;base64,BB", none) ∧
    ("data:image/jpeg;base64,BB" : String) ≠ "data:image/png;base64,AA" := by
  constructor
  · rfl
  · decide

theorem parseEditLoop_no_inline (parts : List Part)
    (h : ∀ d m, Part.inlineData d m ∉ parts) :
    ∀ img txt, (parseEditLoop img txt parts).1 = img := by
  induction parts with
  | nil => intro img txt; rfl
  | cons p rest ih =>
      intro img txt
      cases p with
      | inlineData d m => exact absurd (by simp) (h d m)
      | textPart t =>
          have hrest : ∀ d m, Part.inlineData d m ∉ rest := by
            intro d m hm
            exact h d m (by simp [hm])
          simp [parseEditLoop, ih hrest]

theorem parseEditLoop_append_inline (pre : List Part) (d m : String)
    (post : List Part) (h : ∀ d' m', Part.inlineData d' m' ∉ post) :
    ∀ img txt,
      (parseEditLoop img txt (pre ++ Part.inlineData d m :: post)).1 =
        some (dataURI m d) := by
  induction pre with
  | nil =>
      intro img txt
      simp only [List.nil_append, parseEditLoop]
      exact parseEditLoop_no_inline post h _ _
  | cons p pre' ih =>
      intro img txt
      cases p with
      | inlineData d0 m0 =>
          simp only [List.cons_append, parseEditLoop, List.append_eq]
          exact ih _ _
      | textPart t =>
          simp only [List.cons_append, parseEditLoop, List.append_eq]
          exact ih _ _

theorem parseGenParts_first_inline (pre : List Part) (d m : String)
    (post : List Part) (h : ∀ d' m', Part.inlineData d' m' ∉ pre) :
    parseGenParts (pre ++ Part.inlineData d m :: post) = some (dataURI m d) := by
  induction pre with
  | nil => rfl
  | cons p pre' ih =>
      cases p with
      | inlineData d0 m0 => exact absurd (by simp) (h d0 m0)
      | textPart t =>
          have hpre : ∀ d' m', Part.inlineData d' m' ∉ pre' := by
            intro d' m' hm
            exact h d' m' (by simp [hm])
          simp only [List.cons_append, parseGenParts]
          exact ih hpre

/-- C3 amended: in a one-shot generation call the first inline-data part of
the response becomes the result image and later image parts are ignored; in
the one-shot edit call each inline-data part overwrites the previous one, so
the last image part becomes the result image. -/
theorem responseImageParsing_spec (pre post : List Part) (d m : String) :
    ((∀ d' m', Part.inlineData d' m' ∉ pre) →
      parseGenParts (pre ++ Part.inlineData d m :: post) =
        some (dataURI m d)) ∧
    ((∀ d' m', Part.inlineData d' m' ∉ post) →
      (parseEditParts (pre ++ Part.inlineData d m :: post)).1 =
        some (dataURI m d)) := by
  constructor
  · intro h
    exact parseGenParts_first_inline pre d m post h
  · intro h
    exact parseEditLoop_append_inline pre d m post h none none

/-- C3 witness: on a response holding a text part between two image parts,
the generation parse keeps the first image and the edit parse keeps the
last. -/
theorem responseImageParsing_spec_witness :
    parseGenParts
        [Part.textPart "note", Part.inlineData "AA" "image/png",
         Part.inlineData "BB" "image/jpeg"] = some (dataURI "image/png" "AA") ∧
    (parseEditParts
        [Part.inlineData "AA" "image/png", Part.textPart "note",
         Part.inlineData "BB" "image/jpeg"]).1 =
      some (dataURI "image/jpeg" "BB") := by
  constructor
  · exact (responseImageParsing_spec [Part.textPart "note"]
      [Part.inlineData "BB" "image/jpeg"] "AA" "image/png").1
      (by intro d' m' hm; simp at hm)
  · exact (responseImageParsing_spec
      [Part.inlineData "AA" "image/png", Part.textPart "note"] [] "BB"
      "image/jpeg").2 (by intro d' m' hm; simp at hm)

/-- JavaScript `[...new Set(l)]`: keep the first occurrence of each element,
in insertion order. -/
def jsSetDedup {α : Type} [DecidableEq α] : List α → List α
  | [] => []
  | x :: xs => x :: jsSetDedup (xs.filter (fun y => y ≠ x))
termination_by l => l.length
decreasing_by
  simp only [List.length_cons]
  exact Nat.lt_succ_of_le (List.length_filter_le _ _)

/-- The history-insertion idiom `[...new Set([dataUrl, ...prev])]` used by
`handleImageSelect`, `handleProcessImage`, `handleGeneratorMaterialSelect`,
`handlePatternMaterialSelect` and `handlePatternSubmit` (App.tsx). -/
def insertHistory (dataUrl : String) (prev : List String) : List String :=
  jsSetDedup (dataUrl :: prev)

/-- `handleExportImage` (App.tsx): a data URL already in the export cache is
left where it is; a new one is prepended. -/
def handleExportImage (imageUrl : String) (prev : List String) : List String :=
  if imageUrl ∈ prev then prev else imageUrl :: prev

theorem mem_jsSetDedup {α : Type} [DecidableEq α] (l : List α) (a : α) :
    a ∈ jsSetDedup l ↔ a ∈ l := by
  induction l using jsSetDedup.induct with
  | case1 => simp [jsSetDedup]
  | case2 x xs ih =>
      simp only [jsSetDedup, List.mem_cons, ih, List.mem_filter,
        decide_eq_true_eq]
      by_cases hax : a = x
      · simp [hax]
      · simp [hax]

theorem nodup_jsSetDedup {α : Type} [DecidableEq α] (l : List α) :
    (jsSetDedup l).Nodup := by
  induction l using jsSetDedup.induct with
  | case1 => simp [jsSetDedup]
  | case2 x xs ih =>
      simp only [jsSetDedup, List.nodup_cons]
      refine ⟨?_, ih⟩
      intro hx
      have := (mem_jsSetDedup _ x).mp hx
      simp [List.mem_filter] at this

theorem jsSetDedup_eq_self {α : Type} [DecidableEq α] (l : List α)
    (h : l.Nodup) : jsSetDedup l = l := by
  induction l using jsSetDedup.induct with
  | case1 => simp [jsSetDedup]
  | case2 x xs ih =>
      rcases List.nodup_cons.mp h with ⟨hx, hxs⟩
      have hfix : xs.filter (fun y => y ≠ x) = xs := by
        apply List.filter_eq_self.mpr
        intro y hy
        simp only [decide_eq_true_eq]
        intro hyx
        exact hx (hyx ▸ hy)
      rw [jsSetDedup]
      rw [hfix] at ih ⊢
      rw [ih hxs]

theorem length_filter_ne_of_mem {α : Type} [DecidableEq α] (l : List α)
    (x : α) (hn : l.Nodup) (hx : x ∈ l) :
    (l.filter (fun y => y ≠ x)).length + 1 = l.length := by
  induction l with
  | nil => simp at hx
  | cons a rest ih =>
      rcases List.nodup_cons.mp hn with ⟨ha, hrest⟩
      by_cases hax : a = x
      · subst hax
        have hfix : rest.filter (fun y => y ≠ a) = rest := by
          apply List.filter_eq_self.mpr
          intro y hy
          simp only [decide_eq_true_eq]
          intro hya
          exact ha (hya ▸ hy)
        have hcons : (a :: rest).filter (fun y => y ≠ a) =
            rest.filter (fun y => y ≠ a) := by
          simp [List.filter_cons]
        rw [hcons, hfix]
        simp
      · have hxrest : x ∈ rest := by
          rcases List.mem_cons.mp hx with h0 | h0
          · exact absurd h0.symm hax
          · exact h0
        have ihh := ih hrest hxrest
        have hcons : (a :: rest).filter (fun y => y ≠ x) =
            a :: rest.filter (fun y => y ≠ x) := by
          simp [List.filter_cons, hax]
        rw [hcons]
        simp only [List.length_cons]
        omega

/-- C6: inserting an already-present encoded asset into a (duplicate-free)
history cache moves it to the front without changing the cache length;
inserting a new asset prepends it; and inserting the same asset twice is
the same as inserting it once, leaving it at the front. -/
theorem insertHistory_spec (x : String) (l : List String) (hn : l.Nodup) :
    (insertHistory x l).head? = some x ∧
    (x ∈ l → (insertHistory x l).length = l.length) ∧
    (x ∉ l → insertHistory x l = x :: l) ∧
    insertHistory x (insertHistory x l) = insertHistory x l := by
  refine ⟨?_, ?_, ?_, ?_⟩
  · unfold insertHistory
    rw [jsSetDedup]
    rfl
  · intro hx
    unfold insertHistory
    rw [jsSetDedup]
    rw [jsSetDedup_eq_self _ (hn.filter _)]
    simp only [List.length_cons]
    exact length_filter_ne_of_mem l x hn hx
  · intro hx
    unfold insertHistory
    rw [jsSetDedup]
    have hfix : l.filter (fun y => y ≠ x) = l := by
      apply List.filter_eq_self.mpr
      intro y hy
      simp only [decide_eq_true_eq]
      intro hyx
      exact hx (hyx ▸ hy)
    rw [hfix, jsSetDedup_eq_self _ hn]
  · unfold insertHistory
    rw [jsSetDedup]
    have hnotin : x ∉ jsSetDedup (l.filter (fun y => y ≠ x)) := by
      intro hmem
      have := (mem_jsSetDedup _ x).mp hmem
      simp [List.mem_filter] at this
    rw [jsSetDedup]
    congr 1
    have hconsf : (x :: jsSetDedup (l.filter (fun y => y ≠ x))).filter
        (fun y => y ≠ x) =
        (jsSetDedup (l.filter (fun y => y ≠ x))).filter (fun y => y ≠ x) := by
      simp [List.filter_cons]
    have hfix : (jsSetDedup (l.filter (fun y => y ≠ x))).filter
        (fun y => y ≠ x) = jsSetDedup (l.filter (fun y => y ≠ x)) := by
      apply List.filter_eq_self.mpr
      intro y hy
      simp only [decide_eq_true_eq]
      intro hyx
      exact hnotin (hyx ▸ hy)
    rw [hconsf, hfix, jsSetDedup_eq_self _ (nodup_jsSetDedup _)]

/-- C6 witness: inserting "b", which the cache already holds, moves it to
the front without growing the cache, and doing it twice changes nothing
more. -/
theorem insertHistory_spec_witness :
    (insertHistory "b" ["a", "b", "c"]).head? = some "b" ∧
    (insertHistory "b" ["a", "b", "c"]).length = 3 ∧
    insertHistory "b" (insertHistory "b" ["a", "b", "c"]) =
      insertHistory "b" ["a", "b", "c"] := by
  have h := insertHistory_spec "b" ["a", "b", "c"] (by decide)
  exact ⟨h.1, h.2.1 (by decide), h.2.2.2⟩

/-- C7 counterexample: exporting "b" when the export cache is ["a", "b"]
leaves the cache as ["a", "b"]; "b" is not moved to the front as the claim
demands. -/
theorem handleExportImage_no_move_counterexample :
    handleExportImage "b" ["a", "b"] = ["a", "b"] ∧
    (handleExportImage "b" ["a", "b"]).head? = some "a" ∧
    some "a" ≠ some "b" := by
  refine ⟨rfl, rfl, by decide⟩

/-- C7 amended: inserting an asset whose encoded content is already in the
export cache leaves the cache entirely unchanged (no duplicate and no
reordering), so exporting the same image twice leaves the gallery at
length 1; inserting a new asset prepends it. -/
theorem handleExportImage_spec (x : String) (l : List String) :
    (x ∈ l → handleExportImage x l = l) ∧
    (x ∉ l → handleExportImage x l = x :: l) ∧
    handleExportImage x (handleExportImage x l) = handleExportImage x l ∧
    (handleExportImage x (handleExportImage x [])).length = 1 := by
  refine ⟨?_, ?_, ?_, ?_⟩
  · intro hx
    simp [handleExportImage, hx]
  · intro hx
    simp [handleExportImage, hx]
  · by_cases hx : x ∈ l
    · simp [handleExportImage, hx]
    · simp [handleExportImage, hx]
  · simp [handleExportImage]

/-- C7 witness: exporting the same image twice starting from an empty
gallery leaves exactly one entry. -/
theorem handleExportImage_spec_witness :
    (handleExportImage "data:image/png;base64,AA"
      (handleExportImage "data:image/png;base64,AA" [])).length = 1 ∧
    handleExportImage "data:image/png;base64,AA" ["x"] =
      ["data:image/png;base64,AA", "x"] := by
  constructor
  · exact (handleExportImage_spec "data:image/png;base64,AA" []).2.2.2
  · exact (handleExportImage_spec "data:image/png;base64,AA" ["x"]).2.1
      (by decide)

/-- The three workflow tabs (`ActiveTab` in App.tsx). -/
inductive Tab where
  | generator
  | extractor
  | patternStudio
deriving DecidableEq, Repr

inductive SurfaceType where
  | Flooring
  | Walls
deriving DecidableEq, Repr

inductive GenerationMode where
  | PatternAndMaterial
  | PatternOnly
  | MaterialOnly
deriving DecidableEq, Repr

inductive TileUnit where
  | cm
  | inches
deriving DecidableEq, Repr

inductive ExtractionType where
  | Pattern
  | Material
deriving DecidableEq, Repr

inductive Sender where
  | user
  | bot
deriving DecidableEq, Repr

/-- A chat turn (the wall-clock id field of the Message record in the
source is omitted:
it never influences behaviour). -/
structure Message where
  text : String
  sender : Sender
deriving DecidableEq, Repr

def userMsg (t : String) : Message := ⟨t, Sender.user⟩

def botMsg (t : String) : Message := ⟨t, Sender.bot⟩

/-- `ImageState` (types.ts): an upload slot holding a file and a preview
URL, both possibly null. -/
structure ImageState where
  file : Option FileV
  previewUrl : Option String
deriving DecidableEq, Repr

def emptyImageState : ImageState := ⟨none, none⟩

/-- The `App` component state relevant to the claims: the three workflows'
slots, outputs and flags, the history and export caches, and the chat
transcript. Transient in-flight flags (`loading`, `isProcessing`,
`isPatternGenerating`, `isBotTyping`) and modal-visibility state are
omitted: each handler is modelled by its completed effect. -/
structure AppState where
  activeTab : Tab
  apiKeyError : Option String
  surfaceType : SurfaceType
  generationMode : GenerationMode
  renderShot : ImageState
  patternImage : ImageState
  materials : List ImageState
  outputImages : Option (List String)
  error : Option String
  tileWidth : String
  tileHeight : String
  tileUnit : TileUnit
  numberOfVariations : Nat
  sourceImage : ImageState
  extractionType : ExtractionType
  processedImage : Option String
  processingError : Option String
  sourceWidth : String
  sourceHeight : String
  sourceUnit : TileUnit
  patternOutline : ImageState
  patternMaterials : List ImageState
  patternReference : ImageState
  patternPrompt : String
  patternOutput : Option String
  patternError : Option String
  renderShotHistory : List String
  patternHistory : List String
  materialHistory : List String
  exportedImages : List String
  messages : List Message
deriving DecidableEq, Repr

/-- The branch of the tab-switch effect guarded by activeTab being
different from the generator tab. -/
def clearGeneratorTab (s : AppState) : AppState :=
  { s with renderShot := emptyImageState, patternImage := emptyImageState,
           materials := [], outputImages := none, error := none,
           tileWidth := "", tileHeight := "" }

/-- The branch of the tab-switch effect guarded by activeTab being
different from the extractor tab. -/
def clearExtractorTab (s : AppState) : AppState :=
  { s with sourceImage := emptyImageState, processedImage := none,
           processingError := none, sourceWidth := "", sourceHeight := "" }

/-- The branch of the tab-switch effect guarded by activeTab being
different from the pattern-studio tab. -/
def clearPatternTab (s : AppState) : AppState :=
  { s with patternOutline := emptyImageState, patternMaterials := [],
           patternReference := emptyImageState, patternPrompt := "",
           patternOutput := none, patternError := none }

/-- Switching the active workflow: `setActiveTab` plus the `[activeTab]`
effect of App.tsx, which resets the states of every inactive tab. -/
def switchTab (s : AppState) (t : Tab) : AppState :=
  let s1 : AppState := { s with activeTab := t }
  let s2 : AppState := if t ≠ Tab.generator then clearGeneratorTab s1 else s1
  let s3 : AppState := if t ≠ Tab.extractor then clearExtractorTab s2 else s2
  if t ≠ Tab.patternStudio then clearPatternTab s3 else s3

/-- JavaScript truthiness of `outputImages && outputImages.length > 0`. -/
def jsTruthyBatch (o : Option (List String)) : Bool :=
  match o with
  | none => false
  | some l => decide (0 < l.length)

/-- JavaScript truthiness of a nullable string (null and "" are falsy). -/
def jsTruthyStr (o : Option String) : Bool :=
  match o with
  | none => false
  | some s => decide (s ≠ "")

/-- JavaScript `text || successMessage` on a nullable string. -/
def jsOrStr (o : Option String) (dflt : String) : String :=
  match o with
  | none => dflt
  | some t => if t = "" then dflt else t

/-- How `handleSendMessage` classifies a turn (App.tsx lines 688-707): an
edit of the generator batch, an edit of the pattern-studio output, or a
plain dialogue turn. -/
inductive TurnKind where
  | editGenerator
  | editPatternStudio
  | chatTurn
deriving DecidableEq, Repr

/-- The dispatch condition of `handleSendMessage`: generator active with a
non-empty output batch, else pattern studio active with a truthy output,
else plain chat. The `processedImage` output of the extractor is never
consulted. -/
def turnKind (s : AppState) : TurnKind :=
  if s.activeTab = Tab.generator ∧ jsTruthyBatch s.outputImages = true then
    TurnKind.editGenerator
  else if s.activeTab = Tab.patternStudio ∧ jsTruthyStr s.patternOutput = true then
    TurnKind.editPatternStudio
  else TurnKind.chatTurn

/-- The image `handleSendMessage` submits for editing, when the turn is an
edit turn: the first batch element for the generator, the single output for
pattern studio. -/
def editSubmitted (s : AppState) : Option String :=
  match turnKind s with
  | TurnKind.editGenerator => some ((s.outputImages.getD []).headD "")
  | TurnKind.editPatternStudio => some (s.patternOutput.getD "")
  | TurnKind.chatTurn => none

/-- The inner `handleEdit` of `handleSendMessage`: decode the current image,
run the one-shot edit, and return the replacement image (if any) together
with the bot turn to append. -/
def handleEditStep (currentImage : String) (resp : BackendResponse)
    (successMessage : String) : Option String × String :=
  match parseDataUrl currentImage with
  | Except.error m => (none, m)
  | Except.ok _ =>
      match editImageWithPrompt resp with
      | Except.ok (imageUrl, text) =>
          if imageUrl = "" then
            (none, "The AI did not return a new image for your edit request.")
          else (some imageUrl, jsOrStr text successMessage)
      | Except.error m => (none, m)

/-- `handleSendMessage` (App.tsx): append the user turn, then either edit
the active output image (replacing it on success) or forward the text to the
dialogue session; `resp` is the reply of the backend to an edit request
and `chatReply` the reply of the dialogue session (error for a thrown
send). The
dialogue session is assumed initialised (`chatRef.current` non-null). -/
def handleSendMessage (s : AppState) (msg : String) (resp : BackendResponse)
    (chatReply : Except Unit String) : AppState :=
  if s.apiKeyError.isSome then s else
  let s1 : AppState := { s with messages := s.messages ++ [userMsg msg] }
  match turnKind s with
  | TurnKind.editGenerator =>
      match handleEditStep ((s.outputImages.getD []).headD "") resp
          "Of course. Here is the updated design." with
      | (some u, t) =>
          { s1 with outputImages := some [u],
                    messages := s1.messages ++ [botMsg t] }
      | (none, t) => { s1 with messages := s1.messages ++ [botMsg t] }
  | TurnKind.editPatternStudio =>
      match handleEditStep (s.patternOutput.getD "") resp
          "Of course. Here is the updated pattern." with
      | (some u, t) =>
          { s1 with patternOutput := some u,
                    messages := s1.messages ++ [botMsg t] }
      | (none, t) => { s1 with messages := s1.messages ++ [botMsg t] }
  | TurnKind.chatTurn =>
      match chatReply with
      | Except.ok t => { s1 with messages := s1.messages ++ [botMsg t] }
      | Except.error _ =>
          { s1 with messages := s1.messages ++
              [botMsg "I\x27m sorry, I encountered an error. Please try again."] }

/-- The required-slot validation message of the extractor (App.tsx
line 851). -/
def extractorValidationMessage : String := "Please upload an image to process."

/-- The soft-failure message of the extractor (App.tsx line 875). -/
def extractorNoImageMessage : String :=
  "Failed to process image. The AI did not return an image."

/-- `handleProcessImage` (App.tsx): extractor submit. Returns the state
after the handler finishes and whether a network call was issued. The
validation branch fires before any clearing, so the previous output is kept
on a validation failure. -/
def handleProcessImage (s : AppState) (outcome : CallOutcome) :
    AppState × Bool :=
  if s.apiKeyError.isSome then (s, false)
  else if s.sourceImage.file.isNone then
    ({ s with processingError := some extractorValidationMessage }, false)
  else
    match outcome with
    | CallOutcome.returned (some url) =>
        let s1 : AppState :=
          { s with processedImage := some url, processingError := none }
        (if s.extractionType = ExtractionType.Pattern then
          { s1 with patternHistory := insertHistory url s1.patternHistory }
         else
          { s1 with materialHistory := insertHistory url s1.materialHistory },
         true)
    | CallOutcome.returned none =>
        ({ s with processingError := some extractorNoImageMessage,
                  processedImage := none }, true)
    | CallOutcome.threw m =>
        ({ s with processingError := some m, processedImage := none }, true)

/-- The generator validation message in `PatternAndMaterial` mode. -/
def pamValidationMessage : String :=
  "Please upload a Render Shot, a Pattern, and at least one Material image."

/-- The generator validation message in `PatternOnly` mode. -/
def patternOnlyValidationMessage : String :=
  "Please upload a Render Shot and a Pattern Image for this mode."

/-- The generator validation message in `MaterialOnly` mode. -/
def materialOnlyValidationMessage : String :=
  "Please upload a Render Shot and at least one Material Image for this mode."

/-- The per-mode required-slot validation message of `handleGeneratorSubmit`
(none when the required slots are present). -/
def generatorValidationFailure (s : AppState) : Option String :=
  match s.generationMode with
  | GenerationMode.PatternAndMaterial =>
      if s.renderShot.file.isNone ∨ s.patternImage.file.isNone ∨
          (s.materials.filterMap (fun m => m.file)).isEmpty then
        some pamValidationMessage
      else none
  | GenerationMode.PatternOnly =>
      if s.renderShot.file.isNone ∨ s.patternImage.file.isNone then
        some patternOnlyValidationMessage
      else none
  | GenerationMode.MaterialOnly =>
      if s.renderShot.file.isNone ∨
          (s.materials.filterMap (fun m => m.file)).isEmpty then
        some materialOnlyValidationMessage
      else none

/-- The generator dead-branch message for an empty success list (App.tsx
line 820; `runBatchGeneration` never returns an empty list). -/
def generatorNoImageMessage : String :=
  "Failed to generate image. The AI did not return any images."

/-- `handleGeneratorSubmit` (App.tsx): clears output and error, validates
the required slots (throwing the validation message, caught into `error`,
before any network call), and otherwise runs the batch, storing the image
list or the batch error. -/
def handleGeneratorSubmit (s : AppState) (outcomes : List CallOutcome) :
    AppState × Bool :=
  if s.apiKeyError.isSome then (s, false)
  else
    match generatorValidationFailure s with
    | some m => ({ s with error := some m, outputImages := none }, false)
    | none =>
        match runBatchGeneration outcomes with
        | Except.ok urls =>
            (if urls.isEmpty then
              { s with error := some generatorNoImageMessage,
                       outputImages := none }
             else { s with outputImages := some urls, error := none }, true)
        | Except.error m =>
            ({ s with error := some m, outputImages := none }, true)

/-- The required-slot validation message of the pattern studio (App.tsx
line 972). -/
def patternValidationMessage : String :=
  "Please provide a Pattern Outline and at least one Material Image."

/-- The soft-failure message of the pattern studio (App.tsx line 988). -/
def patternNoImageMessage : String :=
  "The AI failed to generate a pattern. Please try again."

/-- `handlePatternSubmit` (App.tsx): pattern-studio submit; the validation
branch fires before any clearing. -/
def handlePatternSubmit (s : AppState) (outcome : CallOutcome) :
    AppState × Bool :=
  if s.apiKeyError.isSome then (s, false)
  else if s.patternOutline.file.isNone ∨ s.patternMaterials.isEmpty then
    ({ s with patternError := some patternValidationMessage }, false)
  else
    match outcome with
    | CallOutcome.returned (some url) =>
        ({ s with patternOutput := some url, patternError := none,
                  patternHistory := insertHistory url s.patternHistory }, true)
    | CallOutcome.returned none =>
        ({ s with patternError := some patternNoImageMessage,
                  patternOutput := none }, true)
    | CallOutcome.threw m =>
        ({ s with patternError := some m, patternOutput := none }, true)

/-- A fully empty application state, matching the initial `useState` values
of App.tsx (with the API key present, so `apiKeyError` is null). -/
def baseState : AppState where
  activeTab := Tab.generator
  apiKeyError := none
  surfaceType := SurfaceType.Flooring
  generationMode := GenerationMode.PatternAndMaterial
  renderShot := emptyImageState
  patternImage := emptyImageState
  materials := []
  outputImages := none
  error := none
  tileWidth := ""
  tileHeight := ""
  tileUnit := TileUnit.cm
  numberOfVariations := 1
  sourceImage := emptyImageState
  extractionType := ExtractionType.Pattern
  processedImage := none
  processingError := none
  sourceWidth := ""
  sourceHeight := ""
  sourceUnit := TileUnit.cm
  patternOutline := emptyImageState
  patternMaterials := []
  patternReference := emptyImageState
  patternPrompt := ""
  patternOutput := none
  patternError := none
  renderShotHistory := []
  patternHistory := []
  materialHistory := []
  exportedImages := []
  messages := []

/-- C8: switching the active workflow clears every upload slot, output slot
and error flag of both deactivated workflows, leaves the fields of the
workflow being activated unchanged, and leaves the three history caches and
the export cache unchanged — stated for each of the three switch targets. -/
theorem switchTab_spec (s : AppState) :
    ((switchTab s Tab.generator).activeTab = Tab.generator ∧
     (switchTab s Tab.generator).renderShot = s.renderShot ∧
     (switchTab s Tab.generator).patternImage = s.patternImage ∧
     (switchTab s Tab.generator).materials = s.materials ∧
     (switchTab s Tab.generator).outputImages = s.outputImages ∧
     (switchTab s Tab.generator).error = s.error ∧
     (switchTab s Tab.generator).sourceImage = emptyImageState ∧
     (switchTab s Tab.generator).processedImage = none ∧
     (switchTab s Tab.generator).processingError = none ∧
     (switchTab s Tab.generator).patternOutline = emptyImageState ∧
     (switchTab s Tab.generator).patternMaterials = [] ∧
     (switchTab s Tab.generator).patternReference = emptyImageState ∧
     (switchTab s Tab.generator).patternOutput = none ∧
     (switchTab s Tab.generator).patternError = none ∧
     (switchTab s Tab.generator).renderShotHistory = s.renderShotHistory ∧
     (switchTab s Tab.generator).patternHistory = s.patternHistory ∧
     (switchTab s Tab.generator).materialHistory = s.materialHistory ∧
     (switchTab s Tab.generator).exportedImages = s.exportedImages) ∧
    ((switchTab s Tab.extractor).activeTab = Tab.extractor ∧
     (switchTab s Tab.extractor).sourceImage = s.sourceImage ∧
     (switchTab s Tab.extractor).processedImage = s.processedImage ∧
     (switchTab s Tab.extractor).processingError = s.processingError ∧
     (switchTab s Tab.extractor).renderShot = emptyImageState ∧
     (switchTab s Tab.extractor).patternImage = emptyImageState ∧
     (switchTab s Tab.extractor).materials = [] ∧
     (switchTab s Tab.extractor).outputImages = none ∧
     (switchTab s Tab.extractor).error = none ∧
     (switchTab s Tab.extractor).patternOutline = emptyImageState ∧
     (switchTab s Tab.extractor).patternMaterials = [] ∧
     (switchTab s Tab.extractor).patternReference = emptyImageState ∧
     (switchTab s Tab.extractor).patternOutput = none ∧
     (switchTab s Tab.extractor).patternError = none ∧
     (switchTab s Tab.extractor).renderShotHistory = s.renderShotHistory ∧
     (switchTab s Tab.extractor).patternHistory = s.patternHistory ∧
     (switchTab s Tab.extractor).materialHistory = s.materialHistory ∧
     (switchTab s Tab.extractor).exportedImages = s.exportedImages) ∧
    ((switchTab s Tab.patternStudio).activeTab = Tab.patternStudio ∧
     (switchTab s Tab.patternStudio).patternOutline = s.patternOutline ∧
     (switchTab s Tab.patternStudio).patternMaterials = s.patternMaterials ∧
     (switchTab s Tab.patternStudio).patternReference = s.patternReference ∧
     (switchTab s Tab.patternStudio).patternOutput = s.patternOutput ∧
     (switchTab s Tab.patternStudio).patternError = s.patternError ∧
     (switchTab s Tab.patternStudio).renderShot = emptyImageState ∧
     (switchTab s Tab.patternStudio).patternImage = emptyImageState ∧
     (switchTab s Tab.patternStudio).materials = [] ∧
     (switchTab s Tab.patternStudio).outputImages = none ∧
     (switchTab s Tab.patternStudio).error = none ∧
     (switchTab s Tab.patternStudio).sourceImage = emptyImageState ∧
     (switchTab s Tab.patternStudio).processedImage = none ∧
     (switchTab s Tab.patternStudio).processingError = none ∧
     (switchTab s Tab.patternStudio).renderShotHistory = s.renderShotHistory ∧
     (switchTab s Tab.patternStudio).patternHistory = s.patternHistory ∧
     (switchTab s Tab.patternStudio).materialHistory = s.materialHistory ∧
     (switchTab s Tab.patternStudio).exportedImages = s.exportedImages) := by
  refine ⟨⟨?_, ?_, ?_, ?_, ?_, ?_, ?_, ?_, ?_, ?_, ?_, ?_, ?_, ?_, ?_, ?_,
    ?_, ?_⟩,
    ⟨?_, ?_, ?_, ?_, ?_, ?_, ?_, ?_, ?_, ?_, ?_, ?_, ?_, ?_, ?_, ?_, ?_, ?_⟩,
    ⟨?_, ?_, ?_, ?_, ?_, ?_, ?_, ?_, ?_, ?_, ?_, ?_, ?_, ?_, ?_, ?_, ?_,
      ?_⟩⟩ <;> rfl

/-- A state with the extractor active and a non-empty extractor output. -/
def extractorActiveState : AppState :=
  { baseState with activeTab := Tab.extractor,
                   processedImage := some "data:image/png;base64,AA" }

/-- C2 counterexample: with the Extractor active and its output slot
non-empty, the turn is still classified as a plain chat turn, not an edit
turn, contradicting the clause of the claim covering each of the three
workflows. -/
theorem turnKind_extractor_counterexample :
    extractorActiveState.activeTab = Tab.extractor ∧
    extractorActiveState.processedImage = some "data:image/png;base64,AA" ∧
    turnKind extractorActiveState = TurnKind.chatTurn ∧
    TurnKind.chatTurn ≠ TurnKind.editGenerator ∧
    TurnKind.chatTurn ≠ TurnKind.editPatternStudio := by
  refine ⟨rfl, rfl, ?_, by decide, by decide⟩
  rfl

/-- C2 amended: a turn is handled as an image-edit turn iff the Generator is
active with a non-empty output list, or Pattern Studio is active with a
truthy output; the output slot of the Extractor never triggers an edit
turn, and
a non-edit turn forwards the raw text to the dialogue session, appending its
reply. -/
theorem turnKind_spec (s : AppState) (msg : String) (resp : BackendResponse)
    (t : String) :
    (turnKind s = TurnKind.editGenerator ↔
      s.activeTab = Tab.generator ∧ jsTruthyBatch s.outputImages = true) ∧
    (turnKind s = TurnKind.editPatternStudio ↔
      s.activeTab = Tab.patternStudio ∧ jsTruthyStr s.patternOutput = true) ∧
    (s.activeTab = Tab.extractor → turnKind s = TurnKind.chatTurn) ∧
    (s.apiKeyError = none → turnKind s = TurnKind.chatTurn →
      handleSendMessage s msg resp (Except.ok t) =
        { s with messages := s.messages ++ [userMsg msg, botMsg t] }) := by
  by_cases h1 : s.activeTab = Tab.generator ∧ jsTruthyBatch s.outputImages = true
  · have hk : turnKind s = TurnKind.editGenerator := by
      unfold turnKind
      rw [if_pos h1]
    refine ⟨by simp [hk, h1], ?_, ?_, ?_⟩
    · rw [hk]
      constructor
      · intro hc
        exact absurd hc (by decide)
      · intro hc
        rw [h1.1] at hc
        exact absurd hc.1 (by decide)
    · intro he
      rw [he] at h1
      exact absurd h1.1 (by decide)
    · intro _ hturn
      rw [hk] at hturn
      exact absurd hturn (by decide)
  · by_cases h2 : s.activeTab = Tab.patternStudio ∧
        jsTruthyStr s.patternOutput = true
    · have hk : turnKind s = TurnKind.editPatternStudio := by
        unfold turnKind
        rw [if_neg h1, if_pos h2]
      refine ⟨?_, by simp [hk, h2], ?_, ?_⟩
      · rw [hk]
        constructor
        · intro hc
          exact absurd hc (by decide)
        · intro hc
          exact absurd hc h1
      · intro he
        rw [he] at h2
        exact absurd h2.1 (by decide)
      · intro _ hturn
        rw [hk] at hturn
        exact absurd hturn (by decide)
    · have hk : turnKind s = TurnKind.chatTurn := by
        unfold turnKind
        rw [if_neg h1, if_neg h2]
      refine ⟨?_, ?_, fun _ => hk, ?_⟩
      · rw [hk]
        constructor
        · intro hc
          exact absurd hc (by decide)
        · intro hc
          exact absurd hc h1
      · rw [hk]
        constructor
        · intro hc
          exact absurd hc (by decide)
        · intro hc
          exact absurd hc h2
      · intro hkey _
        unfold handleSendMessage
        rw [hkey, hk]
        simp

/-- C2 witness: in the empty base state (no workflow output anywhere), a
turn is a chat turn and the raw text is forwarded, appending the reply of
the session. -/
theorem turnKind_spec_witness :
    handleSendMessage baseState "hello" (BackendResponse.candidates [])
        (Except.ok "Hi there") =
      { baseState with messages :=
          baseState.messages ++ [userMsg "hello", botMsg "Hi there"] } := by
  exact (turnKind_spec baseState "hello" (BackendResponse.candidates [])
    "Hi there").2.2.2 rfl rfl

/-- The error detail `editImageWithPrompt` throws when the backend returned
text but no image. -/
def textOnlyErrorDetail (t : String) : String :=
  "The AI responded but did not return an image: \"" ++ t ++ "\""

theorem editImageWithPrompt_textOnly (ps : List Part) (t : String)
    (hparse : parseEditParts ps = (none, some t)) :
    editImageWithPrompt (BackendResponse.candidates [ps]) =
      Except.error (textOnlyErrorDetail t) := by
  have hred : editImageWithPrompt (BackendResponse.candidates [ps]) =
      (match parseEditParts ps with
       | (some imageUrl, text) => Except.ok (imageUrl, text)
       | (none, some t0) => Except.error (textOnlyErrorDetail t0)
       | (none, none) =>
           Except.error "The AI did not return an image for your edit request.") :=
    rfl
  rw [hred, hparse]

/-- C4: on a chat edit turn whose backend response carries text but no
image, the edit call signals an error carrying that text as detail, the
displayed output slot of the active workflow is left unchanged (the whole
state
changes only by the appended turns), and a bot turn whose text embeds the
returned text is appended as the error detail — for both the Pattern Studio
and the Generator edit branches. -/
theorem editTextOnly_spec (s : AppState) (msg t img : String)
    (ps : List Part) (chat : Except Unit String)
    (hkey : s.apiKeyError = none)
    (hparse : parseEditParts ps = (none, some t))
    (himg : (parseDataUrl img).isOk = true) :
    (s.activeTab = Tab.patternStudio → s.patternOutput = some img →
      img ≠ "" →
      handleSendMessage s msg (BackendResponse.candidates [ps]) chat =
        { s with messages := s.messages ++
            [userMsg msg, botMsg (textOnlyErrorDetail t)] }) ∧
    (∀ rest, s.activeTab = Tab.generator →
      s.outputImages = some (img :: rest) →
      handleSendMessage s msg (BackendResponse.candidates [ps]) chat =
        { s with messages := s.messages ++
            [userMsg msg, botMsg (textOnlyErrorDetail t)] }) := by
  have hstep : handleEditStep img (BackendResponse.candidates [ps])
      "Of course. Here is the updated design." =
      (none, textOnlyErrorDetail t) := by
    unfold handleEditStep
    cases hpd : parseDataUrl img with
    | error e => rw [hpd] at himg; simp [Except.isOk, Except.toBool] at himg
    | ok v => rw [editImageWithPrompt_textOnly ps t hparse]
  have hstep2 : handleEditStep img (BackendResponse.candidates [ps])
      "Of course. Here is the updated pattern." =
      (none, textOnlyErrorDetail t) := by
    unfold handleEditStep
    cases hpd : parseDataUrl img with
    | error e => rw [hpd] at himg; simp [Except.isOk, Except.toBool] at himg
    | ok v => rw [editImageWithPrompt_textOnly ps t hparse]
  constructor
  · intro htab hout hne
    have hk : turnKind s = TurnKind.editPatternStudio := by
      unfold turnKind
      rw [if_neg, if_pos]
      · exact ⟨htab, by rw [hout]; simp [jsTruthyStr, hne]⟩
      · intro hc
        rw [htab] at hc
        exact absurd hc.1 (by decide)
    unfold handleSendMessage
    rw [hkey, hk]
    rw [show s.patternOutput.getD "" = img by rw [hout]; rfl]
    rw [hstep2]
    simp
  · intro rest htab hout
    have hk : turnKind s = TurnKind.editGenerator := by
      unfold turnKind
      rw [if_pos]
      exact ⟨htab, by rw [hout]; simp [jsTruthyBatch]⟩
    unfold handleSendMessage
    rw [hkey, hk]
    rw [show (s.outputImages.getD []).headD "" = img by rw [hout]; rfl]
    rw [hstep]
    simp

/-- C4 witness: with Pattern Studio active holding an output image, a
text-only backend reply leaves the state unchanged except for the user turn
and a bot turn embedding the returned text. -/
theorem editTextOnly_spec_witness :
    handleSendMessage
        { baseState with activeTab := Tab.patternStudio,
                         patternOutput := some "data:image/png;base64,AA" }
        "make it blue" (BackendResponse.candidates [[Part.textPart "I cannot"]])
        (Except.ok "unused") =
      { baseState with activeTab := Tab.patternStudio,
                       patternOutput := some "data:image/png;base64,AA",
                       messages := baseState.messages ++
                         [userMsg "make it blue",
                          botMsg (textOnlyErrorDetail "I cannot")] } := by
  exact (editTextOnly_spec
    { baseState with activeTab := Tab.patternStudio,
                     patternOutput := some "data:image/png;base64,AA" }
    "make it blue" "I cannot" "data:image/png;base64,AA"
    [Part.textPart "I cannot"] (Except.ok "unused") rfl rfl (by rfl)).1
    rfl rfl (by decide)

/-- C10: when the output slot of the Generator holds a batch and a chat
edit
turn succeeds, the image submitted for editing is the first batch element
and the whole output list is replaced by the one-element list holding only
the edited image. -/
theorem editReplacesBatch_spec (s : AppState) (msg img u : String)
    (rest : List String) (txt : Option String) (resp : BackendResponse)
    (chat : Except Unit String)
    (hkey : s.apiKeyError = none)
    (htab : s.activeTab = Tab.generator)
    (hout : s.outputImages = some (img :: rest))
    (himg : (parseDataUrl img).isOk = true)
    (hedit : editImageWithPrompt resp = Except.ok (u, txt))
    (hu : u ≠ "") :
    editSubmitted s = some img ∧
    handleSendMessage s msg resp chat =
      { s with outputImages := some [u],
               messages := s.messages ++
                 [userMsg msg,
                  botMsg (jsOrStr txt "Of course. Here is the updated design.")] } := by
  have hk : turnKind s = TurnKind.editGenerator := by
    unfold turnKind
    rw [if_pos]
    exact ⟨htab, by rw [hout]; simp [jsTruthyBatch]⟩
  have hhead : (s.outputImages.getD []).headD "" = img := by
    rw [hout]
    rfl
  have hstep : handleEditStep img resp
      "Of course. Here is the updated design." =
      (some u, jsOrStr txt "Of course. Here is the updated design.") := by
    unfold handleEditStep
    cases hpd : parseDataUrl img with
    | error e => rw [hpd] at himg; simp [Except.isOk, Except.toBool] at himg
    | ok v =>
        rw [hedit]
        simp [hu]
  constructor
  · unfold editSubmitted
    rw [hk, hhead]
  · unfold handleSendMessage
    rw [hkey, hk, hhead, hstep]
    simp

/-- A generator state holding a two-image output batch. -/
def twoBatchState : AppState :=
  { baseState with
      outputImages := some ["data:image/png;base64,AA",
        "data:image/png;base64,BB"] }

/-- C10 witness: a two-image batch edited through chat ends as the single
edited image, and the submitted image was the first batch element. -/
theorem editReplacesBatch_spec_witness :
    editSubmitted twoBatchState = some "data:image/png;base64,AA" ∧
    (handleSendMessage twoBatchState "brighten it"
        (BackendResponse.candidates [[Part.inlineData "CC" "image/png"]])
        (Except.ok "unused")).outputImages = some ["data:image/png;base64,CC"] := by
  have h := editReplacesBatch_spec twoBatchState
    "brighten it" "data:image/png;base64,AA" "data:image/png;base64,CC"
    ["data:image/png;base64,BB"] none
    (BackendResponse.candidates [[Part.inlineData "CC" "image/png"]])
    (Except.ok "unused") rfl rfl rfl (by rfl) rfl (by decide)
  refine ⟨h.1, ?_⟩
  rw [h.2]

/-- C9 counterexample: the empty-slot validation message of the Extractor
is
"Please upload an image to process." (with a trailing period), not the
claimed exact message "Please upload an image to process". -/
theorem extractorMessage_counterexample :
    (handleProcessImage baseState (CallOutcome.returned none)).1.processingError =
      some extractorValidationMessage ∧
    extractorValidationMessage ≠ "Please upload an image to process" := by
  refine ⟨rfl, by decide⟩

/-- C9 amended: for every workflow, submitting while a required upload slot
is empty issues zero network calls and sets exactly the corresponding
inline validation message (for the Extractor the message "Please upload an
image to process." with its trailing period), leaving the rest of the
workflow state
as the handler leaves it. -/
theorem validation_spec (s : AppState) (o : CallOutcome)
    (outcomes : List CallOutcome) (hkey : s.apiKeyError = none) :
    (s.sourceImage.file.isNone = true →
      handleProcessImage s o =
        ({ s with processingError := some extractorValidationMessage },
         false)) ∧
    (s.patternOutline.file.isNone = true ∨ s.patternMaterials.isEmpty = true →
      handlePatternSubmit s o =
        ({ s with patternError := some patternValidationMessage }, false)) ∧
    (∀ m, generatorValidationFailure s = some m →
      handleGeneratorSubmit s outcomes =
        ({ s with error := some m, outputImages := none }, false)) := by
  have hkey2 : s.apiKeyError.isSome = false := by rw [hkey]; rfl
  refine ⟨?_, ?_, ?_⟩
  · intro hsrc
    unfold handleProcessImage
    rw [hkey2]
    simp only [Bool.false_eq_true, if_false]
    rw [if_pos hsrc]
  · intro hval
    unfold handlePatternSubmit
    rw [hkey2]
    simp only [Bool.false_eq_true, if_false]
    rw [if_pos hval]
  · intro m hm
    unfold handleGeneratorSubmit
    rw [hkey2]
    simp only [Bool.false_eq_true, if_false]
    rw [hm]

/-- C9 witness: in the empty base state a submit on every workflow sets its
validation message and issues no network call. -/
theorem validation_spec_witness :
    handleProcessImage baseState (CallOutcome.returned none) =
      ({ baseState with processingError := some extractorValidationMessage },
       false) ∧
    handlePatternSubmit baseState (CallOutcome.returned none) =
      ({ baseState with patternError := some patternValidationMessage },
       false) ∧
    handleGeneratorSubmit baseState [] =
      ({ baseState with error := some pamValidationMessage,
                        outputImages := none }, false) := by
  have h := validation_spec baseState (CallOutcome.returned none) [] rfl
  exact ⟨h.1 rfl, h.2.1 (Or.inl rfl), h.2.2 _ rfl⟩

end Bovali
